import Mathlib

/-!
Verification development for the phoebe runtime core (a Lisp-like
interpreter in Rust).  Each section shallowly embeds one subsystem of
the source tree, keeping the source structure and names where Lean
permits, and the theorems at the end settle the specification claims
against those embeddings.

Machine integers (u64 words) are modelled as `Nat` with explicit
bitwise operations; every operation used by the source (xor, and,
shifts) preserves the 64-bit range on the inputs we construct, so no
wrap-around modelling is needed beyond the bitwise complement, which
is taken against the 64-bit all-ones word exactly as the complement operator
`!x` behaves on `u64` in two-complement arithmetic.
-/

namespace Phoebe

/-! ## Value encoding: src/types/pointer_tagging.rs -/

/-- Constant POINTER_TAGGING_MASK from src/types/pointer_tagging.rs. -/
def POINTER_TAGGING_MASK : Nat := 0b111

/-- Constant OBJECT_TAG_MASK, the 4 discriminator bits at positions 48..51. -/
def OBJECT_TAG_MASK : Nat := 0b1111 <<< 48

/-- Constant NAN_MASK, the 11 reserved exponent bits at positions 52..62. -/
def NAN_MASK : Nat := 0b11111111111 <<< 52

/-- Bitwise complement on a 64-bit word, as Rust `!x` on `u64`. -/
def u64not (x : Nat) : Nat := 0xFFFFFFFFFFFFFFFF ^^^ x

/-- The `ObjectTag` enum.  The source file pointer_tagging.rs in this
snapshot lists `Cons`, `Symbol`, `Immediate`, `Reference` and keeps
`Function`, `Error`, `Namespace` commented out, yet types/mod.rs,
namespace.rs, heap_object.rs, function.rs and error.rs all use
`ObjectTag::Namespace`, `ObjectTag::HeapObject`, `ObjectTag::Function`
and `ObjectTag::Error`.  Modelled from the spec for those four
variants: the spec (section 3) says a 4-bit discriminator selects the
variant, so they are assigned the next four distinct discriminator
values; no claim depends on the particular numbers, only on their
distinctness. -/
inductive ObjectTag where
  | cons
  | symbol
  | immediate
  | reference
  | namespaceTag
  | heapObject
  | function
  | error
  deriving DecidableEq, Repr

/-- Discriminant of each `ObjectTag` variant (the Rust enum value). -/
def ObjectTag.disc : ObjectTag → Nat
  | .cons => 0
  | .symbol => 1
  | .immediate => 2
  | .reference => 3
  | .namespaceTag => 4
  | .heapObject => 5
  | .function => 6
  | .error => 7

/-- From<ObjectTag> for u64: `(t as u64) << 48`. -/
def ObjectTag.toU64 (t : ObjectTag) : Nat := t.disc <<< 48

/-- PointerTag::mask_bits for ObjectTag. -/
def ObjectTag.maskBits : Nat := OBJECT_TAG_MASK

/-- PointerTag::parent_tag for ObjectTag. -/
def ObjectTag.parentTag : Nat := NAN_MASK

/-- PointerTag::parent_mask for ObjectTag. -/
def ObjectTag.parentMask : Nat := NAN_MASK

/-- PointerTag::is_correct_parent default body. -/
def ObjectTag.isCorrectParent (w : Nat) : Bool :=
  w &&& ObjectTag.parentMask == ObjectTag.parentTag

/-- PointerTag::tag_bits_match default body. -/
def ObjectTag.tagBitsMatch (t : ObjectTag) (w : Nat) : Bool :=
  w &&& ObjectTag.maskBits == t.toU64

/-- PointerTag::tag default body: `self.into() ^ ptr ^ Self::parent_tag()`. -/
def ObjectTag.tag (t : ObjectTag) (p : Nat) : Nat :=
  t.toU64 ^^^ p ^^^ ObjectTag.parentTag

/-- PointerTag::untag default body: `ptr & !(self.into())`. -/
def ObjectTag.untag (t : ObjectTag) (w : Nat) : Nat :=
  w &&& u64not t.toU64

/-- PointerTag::is_of_type default body. -/
def ObjectTag.isOfType (t : ObjectTag) (w : Nat) : Bool :=
  ObjectTag.isCorrectParent w && t.tagBitsMatch w

/-- Floatp::Float::tag_bits_match from pointer_tagging.rs: a word is a
float exactly when its 11 reserved exponent bits are not all set. -/
def floatIsType (w : Nat) : Bool :=
  !(w &&& NAN_MASK == NAN_MASK)

/-! ## Immediate tagging: src/types/immediate.rs -/

/-- Constant IMMEDIATE_TAG_MASK: `0xffff << 32`. -/
def IMMEDIATE_TAG_MASK : Nat := 0xffff <<< 32

/-- The `ImmediateTag` enum from immediate.rs. -/
inductive ImmediateTag where
  | boolTag
  | integer
  | unsignedInt
  | specialMarker
  deriving DecidableEq, Repr

/-- From<ImmediateTag> for u64: `(t as u64) << 32`. -/
def ImmediateTag.toU64 : ImmediateTag → Nat
  | .boolTag => 0 <<< 32
  | .integer => 1 <<< 32
  | .unsignedInt => 2 <<< 32
  | .specialMarker => 3 <<< 32

/-- PointerTag::parent_mask for ImmediateTag:
`ObjectTag::parent_mask() ^ ObjectTag::mask_bits()`. -/
def ImmediateTag.parentMask : Nat := ObjectTag.parentMask ^^^ ObjectTag.maskBits

/-- PointerTag::parent_tag for ImmediateTag: `ObjectTag::Immediate.tag(0)`. -/
def ImmediateTag.parentTag : Nat := ObjectTag.immediate.tag 0

/-- PointerTag::tag default body for ImmediateTag. -/
def ImmediateTag.tag (t : ImmediateTag) (v : Nat) : Nat :=
  t.toU64 ^^^ v ^^^ ImmediateTag.parentTag

/-- PointerTag::untag default body for ImmediateTag. -/
def ImmediateTag.untag (t : ImmediateTag) (w : Nat) : Nat :=
  w &&& u64not t.toU64

/-- PointerTag::is_of_type default body for ImmediateTag. -/
def ImmediateTag.isOfType (t : ImmediateTag) (w : Nat) : Bool :=
  (w &&& ImmediateTag.parentMask == ImmediateTag.parentTag)
    && (w &&& IMMEDIATE_TAG_MASK == t.toU64)

/-! ## Error tagging: src/types/error.rs -/

/-- The `ErrorTag` enum from error.rs: low-bit tag on Error pointers. -/
inductive ErrorTag where
  | signaling
  | quiet
  deriving DecidableEq, Repr

/-- From<ErrorTag> for u64: `t as u64`. -/
def ErrorTag.toU64 : ErrorTag → Nat
  | .signaling => 0
  | .quiet => 1

/-- PointerTag::parent_mask for ErrorTag:
`ObjectTag::parent_mask() ^ ObjectTag::mask_bits()`. -/
def ErrorTag.parentMask : Nat := ObjectTag.parentMask ^^^ ObjectTag.maskBits

/-- PointerTag::parent_tag for ErrorTag: `ObjectTag::Error.tag(0)`. -/
def ErrorTag.parentTag : Nat := ObjectTag.error.tag 0

/-- PointerTag::tag default body for ErrorTag. -/
def ErrorTag.tag (t : ErrorTag) (p : Nat) : Nat :=
  t.toU64 ^^^ p ^^^ ErrorTag.parentTag

/-- PointerTag::untag default body for ErrorTag. -/
def ErrorTag.untag (t : ErrorTag) (w : Nat) : Nat :=
  w &&& u64not t.toU64

/-- PointerTag::tag_bits_match for ErrorTag (mask_bits is `0b111`). -/
def ErrorTag.tagBitsMatch (t : ErrorTag) (w : Nat) : Bool :=
  w &&& 0b111 == t.toU64

/-- PointerTag::is_of_type default body for ErrorTag. -/
def ErrorTag.isOfType (t : ErrorTag) (w : Nat) : Bool :=
  (w &&& ErrorTag.parentMask == ErrorTag.parentTag) && t.tagBitsMatch w

/-! ## The Object word and its encoders: src/types/mod.rs, immediate.rs -/

/-- The 64-bit NaN-boxed value word `struct Object(u64)`. -/
structure Object where
  raw : Nat
  deriving DecidableEq, Repr

/-- The `SpecialMarker` enum from immediate.rs. -/
inductive SpecialMarker where
  | uninitialized
  deriving DecidableEq, Repr

/-- Discriminant of `SpecialMarker` (`repr(u32)`). -/
def SpecialMarker.toU32 : SpecialMarker → Nat
  | .uninitialized => 0

/-- The `Immediate` enum from immediate.rs.  An i32 is carried by its
32-bit pattern (`n as u32` in the encoder), a usize by its value. -/
inductive Immediate where
  | boolI (b : Bool)
  | integer (bits32 : Nat)
  | unsignedInt (n : Nat)
  | specialMarker (s : SpecialMarker)
  deriving DecidableEq, Repr

/-- From<Immediate> for Object (immediate.rs lines 114..123). -/
def Object.fromImmediate : Immediate → Object
  | .boolI b => ⟨ImmediateTag.boolTag.tag (if b then 1 else 0)⟩
  | .integer bits32 => ⟨ImmediateTag.integer.tag bits32⟩
  | .unsignedInt n => ⟨ImmediateTag.unsignedInt.tag n⟩
  | .specialMarker s => ⟨ImmediateTag.specialMarker.tag s.toU32⟩

/-- From<usize> for Object (immediate.rs lines 149..153). -/
def Object.fromUsize (n : Nat) : Object :=
  ⟨ImmediateTag.unsignedInt.tag n⟩

/-- From<f64> for Object: `Object(f.to_bits())`.  Floats are modelled
by their 64-bit patterns. -/
def Object.fromF64Bits (bits : Nat) : Object := ⟨bits⟩

/-- From<*mut Cons> for Object (cons.rs): `ObjectTag::Cons.tag(ptr)`. -/
def Object.fromConsPtr (p : Nat) : Object := ⟨ObjectTag.cons.tag p⟩

/-- From<SymRef> for Object (symbol.rs): symbol pointers are tagged
with `ObjectTag::Symbol`. -/
def Object.fromSymbolPtr (p : Nat) : Object := ⟨ObjectTag.symbol.tag p⟩

/-- From<Reference> for Object (reference.rs):
`ObjectTag::Reference.tag(ptr)`. -/
def Object.fromReferencePtr (p : Nat) : Object := ⟨ObjectTag.reference.tag p⟩

/-- From<GcRef<Namespace>> for Object (namespace.rs). -/
def Object.fromNamespacePtr (p : Nat) : Object := ⟨ObjectTag.namespaceTag.tag p⟩

/-- From<GcRef<HeapObject>> for Object (heap_object.rs). -/
def Object.fromHeapObjectPtr (p : Nat) : Object := ⟨ObjectTag.heapObject.tag p⟩

/-- From<GcRef<Function>> for Object (function.rs). -/
def Object.fromFunctionPtr (p : Nat) : Object := ⟨ObjectTag.function.tag p⟩

/-- Object::quiet_error (types/mod.rs lines 25..27). -/
def Object.quietError (p : Nat) : Object := ⟨ErrorTag.quiet.tag p⟩

/-- Object::loud_error (types/mod.rs lines 28..30). -/
def Object.loudError (p : Nat) : Object := ⟨ErrorTag.signaling.tag p⟩

/-! ## Decoders: src/types/conversions.rs, immediate.rs, mod.rs -/

/-- FromUnchecked<Object> for i32 (conversions.rs lines 238..244):
`(ImmediateTag::Integer.untag(obj.0) as u32) as i32`, carried as the
32-bit pattern. -/
def i32FromUnchecked (o : Object) : Nat :=
  ImmediateTag.integer.untag o.raw &&& 0xFFFFFFFF

/-- FromUnchecked<Object> for bool (conversions.rs lines 220..226):
`ImmediateTag::Bool.untag(obj.0) != 0`. -/
def boolFromUnchecked (o : Object) : Bool :=
  ImmediateTag.boolTag.untag o.raw != 0

/-- FromUnchecked<Object> for SpecialMarker (immediate.rs lines
49..57); the non-`Uninitialized` arm panics, modelled as `none`. -/
def specialMarkerFromUnchecked (o : Object) : Option SpecialMarker :=
  match ImmediateTag.specialMarker.untag o.raw &&& 0xFFFFFFFF with
  | 0 => some .uninitialized
  | _ => none

/-- Modelled from the spec: `FromUnchecked<Object> for usize` is
absent from src (immediate.rs calls `usize::from_unchecked` but no
impl exists in the tree).  Following the sibling i32 and SpecialMarker
decoders and the contract that decode inverts encode within
representation, the unsigned payload is read back from the word. -/
def usizeFromUnchecked (o : Object) : Nat :=
  ImmediateTag.unsignedInt.untag o.raw &&& 0xFFFFFFFF

/-- Modelled from the spec: `FromObject for usize` is likewise absent
from src; its `is_type` follows the generic default with the
`UnsignedInt` tag forced by `From<usize> for Object`. -/
def usizeIsType (o : Object) : Bool :=
  ImmediateTag.unsignedInt.isOfType o.raw

/-- FromUnchecked<Object> for Immediate (immediate.rs lines 87..102);
the trailing panic arm is modelled as `none`. -/
def Immediate.fromUnchecked (o : Object) : Option Immediate :=
  if ImmediateTag.integer.isOfType o.raw then
    some (.integer (i32FromUnchecked o))
  else if ImmediateTag.boolTag.isOfType o.raw then
    some (.boolI (boolFromUnchecked o))
  else if usizeIsType o then
    some (.unsignedInt (usizeFromUnchecked o))
  else if ImmediateTag.specialMarker.isOfType o.raw then
    (specialMarkerFromUnchecked o).map .specialMarker
  else
    none

/-- FromUnchecked<Object> for GcRef<Error> (error.rs lines 263..271):
untag with the Signaling tag when the word is signaling, otherwise
with the Quiet tag. -/
def errorFromUnchecked (o : Object) : Nat :=
  if ErrorTag.signaling.isOfType o.raw then
    ErrorTag.signaling.untag o.raw
  else
    ErrorTag.quiet.untag o.raw

/-- The `ExpandedObject` enum from types/mod.rs; pointer-backed
variants carry the raw pointer that `from_unchecked` produced. -/
inductive ExpandedObject where
  | float (bits : Nat)
  | immediate (i : Immediate)
  | reference (p : Nat)
  | symbol (p : Nat)
  | cons (p : Nat)
  | namespaceV (p : Nat)
  | heapObject (p : Nat)
  | function (p : Nat)
  | quietError (p : Nat)
  deriving DecidableEq, Repr

/-- Result of TryFrom<Object> for ExpandedObject; `panic` stands for
the `unreachable!()` arm and for panics inside `from_unchecked`. -/
inductive DecodeResult where
  | err (e : Nat)
  | ok (x : ExpandedObject)
  | panic
  deriving DecidableEq, Repr

/-- TryFrom<Object> for ExpandedObject (types/mod.rs lines 201..229),
testing the variants in source order. -/
def tryFromObject (o : Object) : DecodeResult :=
  if ErrorTag.signaling.isOfType o.raw then .err (errorFromUnchecked o)
  else if floatIsType o.raw then .ok (.float o.raw)
  else if ObjectTag.cons.isOfType o.raw then .ok (.cons (ObjectTag.cons.untag o.raw))
  else if ObjectTag.immediate.isOfType o.raw then
    match Immediate.fromUnchecked o with
    | some i => .ok (.immediate i)
    | none => .panic
  else if ObjectTag.symbol.isOfType o.raw then .ok (.symbol (ObjectTag.symbol.untag o.raw))
  else if ObjectTag.reference.isOfType o.raw then
    .ok (.reference (ObjectTag.reference.untag o.raw))
  else if ObjectTag.namespaceTag.isOfType o.raw then
    .ok (.namespaceV (ObjectTag.namespaceTag.untag o.raw))
  else if ObjectTag.heapObject.isOfType o.raw then
    .ok (.heapObject (ObjectTag.heapObject.untag o.raw))
  else if ObjectTag.function.isOfType o.raw then
    .ok (.function (ObjectTag.function.untag o.raw))
  else if ObjectTag.error.isOfType o.raw then .ok (.quietError (errorFromUnchecked o))
  else .panic

/-- The `ops::Try` impl for Object (types/mod.rs lines 127..143):
`into_result` separates signaling error words from ordinary words. -/
def intoResult (o : Object) : Except Nat Object :=
  if ErrorTag.signaling.isOfType o.raw then .error (errorFromUnchecked o)
  else .ok o

/-! ## The catch-error special form: src/builtins/error_handling.rs -/

/-- The inner closure of catch-error run under `in_parent_env`: on a
signaling result it records the quiet form of the caught error for the
handler environment and re-raises via `e.into()`, which is
`Object::loud_error(e)`.  Returns the closure result together with the
recorded quiet binding. -/
def catchInner (tryW : Object) : Object × Option Object :=
  match intoResult tryW with
  | .ok o => (o, none)
  | .error e => (Object.loudError e, some (Object.quietError e))

/-- Outcome of the catch-error special form: either the try result is
returned directly, or the handler clauses run with the quiet error
bound and with the initial result `Object::from(e)`. -/
inductive CatchOutcome where
  | returned (o : Object)
  | handlerRun (boundQuiet : Option Object) (initialRes : Object)
  deriving DecidableEq, Repr

/-- The catch-error special form (error_handling.rs lines 25..53) on
an already-evaluated try result: the outer `into_result` decides
whether the handler environment is entered. -/
def catchErrorOn (tryW : Object) : CatchOutcome :=
  let inner := catchInner tryW
  match intoResult inner.1 with
  | .ok o => .returned o
  | .error e2 => .handlerRun inner.2 (Object.loudError e2)

/-! ## Allocator and heap registry: src/allocate.rs -/

/-- Global allocator state: ALLOCED_OBJECTS (the registry the sweep
phase drains), the messages currently buffered inside the
JUST_ALLOCATED mpsc channel, the GC_THRESHOLD, and a count of unpark
signals sent to the collector thread. -/
structure AllocGlobals where
  alloced : List Object
  pending : List Object
  threshold : Nat
  gcUnparks : Nat
  deriving DecidableEq, Repr

/-- add_to_alloced (allocate.rs lines 79..81): sends the object on the
channel to the dedicated allocator thread; the registry itself is not
touched by the sending thread. -/
def add_to_alloced (o : Object) (g : AllocGlobals) : AllocGlobals :=
  { g with pending := g.pending ++ [o] }

/-- GarbageCollected::allocate (gc/garbage_collected.rs lines 31..36):
allocates, calls `add_to_alloced(Object::from(r))`, and returns the
handle `r` to the caller. -/
def allocate (o : Object) (g : AllocGlobals) : Object × AllocGlobals :=
  (o, add_to_alloced o g)

/-- One iteration of the allocator thread loop (allocate.rs lines
45..63): receive one message, push it onto ALLOCED_OBJECTS under the
lock, and unpark the collector when the count exceeds the threshold. -/
def allocatorThreadStep (g : AllocGlobals) : AllocGlobals :=
  match g.pending with
  | [] => g
  | o :: rest =>
    let al := g.alloced ++ [o]
    { alloced := al
      pending := rest
      threshold := g.threshold
      gcUnparks := g.gcUnparks + (if al.length > g.threshold then 1 else 0) }

/-- Runs the allocator thread loop for a given number of received
messages. -/
def allocatorRun : Nat → AllocGlobals → AllocGlobals
  | 0, g => g
  | n + 1, g => allocatorRun n (allocatorThreadStep g)

/-- Runs the allocator thread until its channel is empty. -/
def drainAllocator (g : AllocGlobals) : AllocGlobals :=
  allocatorRun g.pending.length g

/-! ## Evaluation stack: src/stack/mod.rs

The per-thread stack is a fixed-capacity `Vec<Object>`; it is modelled
as a `List` whose head is the top of the stack, together with the
capacity.  `push_to_vec_checked` is generic over the element type in
the source and is kept generic here. -/

/-- Stack capacity constant STACK_CAPACITY from stack/mod.rs. -/
def STACK_CAPACITY : Nat := 128

/-- Stack error conditions from stack/mod.rs. -/
inductive StackErr where
  | overflow (stackSize stackCapacity : Nat)
  | underflow
  deriving DecidableEq, Repr

/-- push_to_vec_checked (stack/mod.rs lines 132..144): refuses the
push when length equals capacity, since a reallocation would
invalidate live references into the stack. -/
def push_to_vec_checked {α : Type} (cap : Nat) (s : List α) (o : α) :
    Except StackErr (List α) :=
  if s.length == cap then .error (.overflow s.length cap) else .ok (o :: s)

/-- make_stack_frame (stack/mod.rs lines 34..40): pushes each value in
order, then the count marker `objs.len().into()`. -/
def make_stack_frame (cap : Nat) (s objs : List Object) :
    Except StackErr (List Object) := do
  let s1 ← objs.foldlM (fun acc o => push_to_vec_checked cap acc o) s
  push_to_vec_checked cap s1 (Object.fromUsize objs.length)

/-- Pops n items off a stack, `none` on underflow (the source unwraps,
panicking). -/
def popN {α : Type} : Nat → List α → Option (List α)
  | 0, s => some s
  | _ + 1, [] => none
  | n + 1, _ :: t => popN n t

/-- close_stack_frame_and_return (stack/mod.rs lines 59..67): pops the
count marker, reads it back through the unchecked usize conversion,
pops that many argument slots and pushes the return value. -/
def close_stack_frame_and_return (s : List Object) (v : Object) :
    Option (List Object) :=
  match s with
  | [] => none
  | marker :: rest =>
    let nArgs := usizeFromUnchecked marker
    (popN nArgs rest).map (fun r => v :: r)

/-! ## Symbol interning: src/symbol_lookup/mod.rs

SYMBOLS_HEAP is a mutex-guarded map from byte strings to symbol
addresses; the mutex serialises concurrent callers, so an arbitrary
interleaving of calls from any threads is an arbitrary sequence of
calls.  `Symbol::allocate` returns a fresh heap address distinct from
every live allocation, and interned symbols are permanent (the mark
phase marks every SYMBOLS_HEAP entry each pass, so they are never
swept); freshness is modelled by a strictly increasing counter. -/

/-- The SYMBOLS_HEAP table together with the allocator freshness
counter. -/
structure SymTab where
  table : List (String × Nat)
  ctr : Nat
  deriving DecidableEq, Repr

/-- make_symbol (symbol_lookup/mod.rs lines 196..204): return the
existing entry for the name, or allocate a fresh symbol and intern
it. -/
def make_symbol (s : String) (σ : SymTab) : Nat × SymTab :=
  match σ.table.lookup s with
  | some a => (a, σ)
  | none => (σ.ctr, ⟨(s, σ.ctr) :: σ.table, σ.ctr + 1⟩)

/-- Processes a sequence of make_symbol calls, returning the addresses
handed out in order. -/
def runMakeSymbols : List String → SymTab → List Nat × SymTab
  | [], σ => ([], σ)
  | s :: rest, σ =>
    let r := make_symbol s σ
    let rs := runMakeSymbols rest r.2
    (r.1 :: rs.1, rs.2)

/-! ## Garbage collector: src/gc/garbage_collected.rs, src/gc/mod.rs

The GC layer is modelled over a typed heap: addresses are `Nat`,
`GcRef<T>` fields are addresses, and an `Object`-typed field is
carried in its decoded (expanded) view, matching the dispatch in
`Object::gc_mark` and `Object::should_dealloc` (types/mod.rs lines
44..75).  Mark epochs live in a side table defaulting to 0, which is
`GcMark::default()`.  The epoch-gated recursion of `gc_mark`
terminates because re-marking an already-stamped node stops; the Lean
embedding makes this explicit with a fuel argument that every
recursive call decrements, and the theorems below only evaluate the
marker on states where the fuel is ample. -/

/-- Decoded view of an `Object` field as dispatched by
`Object::gc_mark`; pointer-backed variants carry the address. -/
inductive ObjV where
  | floatV
  | immediateV
  | referenceV (target : ObjV)
  | symbolV (a : Nat)
  | consV (a : Nat)
  | namespaceV (a : Nat)
  | heapObjectV (a : Nat)
  | functionV (a : Nat)
  | quietErrorV (a : Nat)
  deriving DecidableEq, Repr

/-- The `List` enum from types/list.rs: nil or a cons address. -/
inductive ListV where
  | nilL
  | consL (a : Nat)
  deriving DecidableEq, Repr

/-- The `FunctionBody` enum from types/function.rs. -/
inductive FuncBodyV where
  | source (l : ListV)
  | builtin
  | specialForm
  deriving DecidableEq, Repr

/-- The `Function` struct fields (types/function.rs lines 258..265),
minus the gc marking which lives in the side table. -/
structure FunctionCell where
  name : Option Nat
  arglist : ListV
  body : FuncBodyV
  stackFrameLength : Nat
  env : Nat
  deriving DecidableEq, Repr

/-- The `EvaluatorError` variants as stored in an `Error` heap object
(types/error.rs lines 88..126), keeping exactly the fields that
`Error::gc_mark_children` visits. -/
inductive ErrV where
  | stackOverflowE
  | stackUnderflowE
  | badArgCountE (arglist : ListV)
  | typeErrorE (wantedType : Nat)
  | improperListE
  | cannotBeReferencedE
  | unboundSymbolE (sym : Nat)
  | unaccompaniedKeyE (key : Nat)
  | argIndexE
  | userE (name : Nat) (body : ObjV)
  deriving DecidableEq, Repr

/-- One heap-resident object.  A `Namespace` is either heap-flavored
(slots are heap-object addresses) or stack-flavored (slots are
references, carried as the dereferenced value view). -/
inductive Cell where
  | consC (car cdr : ObjV)
  | symC
  | nsHeapC (nameO : Option ObjV) (entries : List (Nat × Nat)) (parent : Option Nat)
  | nsStackC (entries : List (Nat × ObjV)) (parent : Option Nat)
  | heapObjC (val : ObjV)
  | funcC (f : FunctionCell)
  | errC (e : ErrV)
  deriving DecidableEq, Repr

/-- The heap: an association of addresses to cells. -/
def Heap := List (Nat × Cell)

/-- The mark-epoch side table; missing entries read as the default 0. -/
def Marks := List (Nat × Nat)

/-- Reads the stored mark epoch of an object (GcMark load). -/
def marksGet (ms : Marks) (a : Nat) : Nat :=
  (List.lookup a ms).getD 0

/-- Stamps the mark epoch of an object (GcMark swap). -/
def marksSet (ms : Marks) (a m : Nat) : Marks :=
  (a, m) :: ms

/-- Work items of the marking recursion: mark through an address
(GarbageCollected::gc_mark), mark the children of a cell
(gc_mark_children), mark through an Object field (Object::gc_mark), or
walk one of the two namespace table loops. -/
inductive MarkTask where
  | addrT (a : Nat)
  | cellT (c : Cell)
  | objT (o : ObjV)
  | nsHeapT (entries : List (Nat × Nat)) (parent : Option Nat)
  | nsStackT (entries : List (Nat × ObjV)) (parent : Option Nat)

/-- The epoch-gated recursive marker, with all the arms of the source
in one fueled function.  The `addrT` arm is
GarbageCollected::gc_mark (gc/garbage_collected.rs lines 51..56): swap
the stored epoch for the target epoch, recurse into children only when
the old epoch differed.  The `cellT` arm dispatches gc_mark_children
per heap type (cons.rs, namespace.rs lines 318..339, heap_object.rs,
function.rs lines 311..323, error.rs lines 297..315); note that the
namespace arms mark the parent inside the per-entry loop, and the
function arm does not visit `self.env`, both exactly as in the source.
The `objT` arm is Object::gc_mark (types/mod.rs lines 64..75): floats
and immediates are no-ops, a reference marks its dereferenced target,
pointer-backed variants mark through their address. -/
def gcMarkGo (heap : Heap) : Nat → Marks → MarkTask → Nat → Marks
  | 0, ms, _, _ => ms
  | fuel + 1, ms, t, m =>
    match t with
    | .addrT a =>
      let old := marksGet ms a
      let ms1 := marksSet ms a m
      if old = m then ms1
      else
        match List.lookup a heap with
        | none => ms1
        | some c => gcMarkGo heap fuel ms1 (.cellT c) m
    | .cellT c =>
      match c with
      | .consC car cdr =>
        let ms1 := gcMarkGo heap fuel ms (.objT car) m
        gcMarkGo heap fuel ms1 (.objT cdr) m
      | .symC => ms
      | .nsHeapC _ entries parent => gcMarkGo heap fuel ms (.nsHeapT entries parent) m
      | .nsStackC entries parent => gcMarkGo heap fuel ms (.nsStackT entries parent) m
      | .heapObjC v => gcMarkGo heap fuel ms (.objT v) m
      | .funcC f =>
        let ms1 := match f.name with
          | some s => gcMarkGo heap fuel ms (.addrT s) m
          | none => ms
        let ms2 := match f.arglist with
          | .consL c => gcMarkGo heap fuel ms1 (.addrT c) m
          | .nilL => ms1
        match f.body with
        | .source (.consL b) => gcMarkGo heap fuel ms2 (.addrT b) m
        | _ => ms2
      | .errC e =>
        match e with
        | .badArgCountE (.consL c) => gcMarkGo heap fuel ms (.addrT c) m
        | .typeErrorE w => gcMarkGo heap fuel ms (.addrT w) m
        | .unboundSymbolE s => gcMarkGo heap fuel ms (.addrT s) m
        | .unaccompaniedKeyE k => gcMarkGo heap fuel ms (.addrT k) m
        | .userE n b =>
          let ms1 := gcMarkGo heap fuel ms (.addrT n) m
          gcMarkGo heap fuel ms1 (.objT b) m
        | _ => ms
    | .objT o =>
      match o with
      | .floatV => ms
      | .immediateV => ms
      | .referenceV tgt => gcMarkGo heap fuel ms (.objT tgt) m
      | .symbolV a => gcMarkGo heap fuel ms (.addrT a) m
      | .consV a => gcMarkGo heap fuel ms (.addrT a) m
      | .namespaceV a => gcMarkGo heap fuel ms (.addrT a) m
      | .heapObjectV a => gcMarkGo heap fuel ms (.addrT a) m
      | .functionV a => gcMarkGo heap fuel ms (.addrT a) m
      | .quietErrorV a => gcMarkGo heap fuel ms (.addrT a) m
    | .nsHeapT [] _ => ms
    | .nsHeapT ((s, h) :: rest) parent =>
      let ms1 := gcMarkGo heap fuel ms (.addrT s) m
      let ms2 := gcMarkGo heap fuel ms1 (.addrT h) m
      let ms3 := match parent with
        | some p => gcMarkGo heap fuel ms2 (.addrT p) m
        | none => ms2
      gcMarkGo heap fuel ms3 (.nsHeapT rest parent) m
    | .nsStackT [] _ => ms
    | .nsStackT ((s, r) :: rest) parent =>
      let ms1 := gcMarkGo heap fuel ms (.addrT s) m
      let ms2 := gcMarkGo heap fuel ms1 (.objT r) m
      let ms3 := match parent with
        | some p => gcMarkGo heap fuel ms2 (.addrT p) m
        | none => ms2
      gcMarkGo heap fuel ms3 (.nsStackT rest parent) m

/-- GarbageCollected::gc_mark through an address. -/
def gcMarkAddr (heap : Heap) (fuel : Nat) (ms : Marks) (a m : Nat) : Marks :=
  gcMarkGo heap fuel ms (.addrT a) m

/-- Object::gc_mark through a decoded Object field. -/
def gcMarkObj (heap : Heap) (fuel : Nat) (ms : Marks) (o : ObjV) (m : Nat) : Marks :=
  gcMarkGo heap fuel ms (.objT o) m

/-- Object::should_dealloc (types/mod.rs lines 48..60): by-value
variants never deallocate; heap variants compare their stored epoch
against the pass epoch (gc/garbage_collected.rs lines 59..61). -/
def shouldDeallocObjV (ms : Marks) (m : Nat) : ObjV → Bool
  | .floatV => false
  | .immediateV => false
  | .referenceV _ => false
  | .symbolV a => !(marksGet ms a == m)
  | .consV a => !(marksGet ms a == m)
  | .namespaceV a => !(marksGet ms a == m)
  | .heapObjectV a => !(marksGet ms a == m)
  | .functionV a => !(marksGet ms a == m)
  | .quietErrorV a => !(marksGet ms a == m)

/-- Address of a heap-backed registry entry, if it has one. -/
def addrOfObjV : ObjV → Option Nat
  | .symbolV a => some a
  | .consV a => some a
  | .namespaceV a => some a
  | .heapObjectV a => some a
  | .functionV a => some a
  | .quietErrorV a => some a
  | _ => none

/-- Whether a registry entry is heap-backed (carries a stored epoch). -/
def isHeapBacked (o : ObjV) : Bool :=
  (addrOfObjV o).isSome

/-- Releases the backing storage of one deallocated object. -/
def heapErase (heap : Heap) (a : Nat) : Heap :=
  List.filter (fun p => !(p.1 == a)) heap

/-- Releases the backing storage of every swept entry (allocate.rs
`deallocate` dispatching GarbageCollected::deallocate). -/
def heapEraseMany (heap : Heap) (removed : List ObjV) : Heap :=
  removed.foldl (fun h o =>
    match addrOfObjV o with
    | some a => heapErase h a
    | none => h) heap

/-- A generous fuel bound for one mark phase over a given heap. -/
def heapFuel (heap : Heap) : Nat :=
  8 * (heap.foldl (fun n p => n +
    match p.2 with
    | .consC _ _ => 4
    | .symC => 1
    | .nsHeapC _ es _ => 4 * es.length + 2
    | .nsStackC es _ => 4 * es.length + 2
    | .heapObjC _ => 2
    | .funcC _ => 4
    | .errC _ => 4) 1) + 8

/-- The global collector state: the typed heap with its epoch table,
ALLOCED_OBJECTS (decoded views), the stack of every thread (stack/mod.rs
STACKS), SYMBOLS_HEAP values, the ENV_REF_COUNTS key set, THE_GC_MARK
counter and GC_THRESHOLD. -/
structure GcGlobals where
  heap : Heap
  marks : Marks
  alloced : List ObjV
  threadStacks : List (List ObjV)
  symbolsHeap : List Nat
  envRefCounts : List Nat
  gcMarkCtr : Nat
  threshold : Nat

/-- update_gc_threshold (gc/mod.rs lines 81..84): twice the surviving
count. -/
def update_gc_threshold (survivors : Nat) : Nat := survivors * 2

/-- The mark phase of gc_pass (gc/mod.rs lines 105..126): mark every
stack contents of every thread (gc_mark_stack), then mark_scope, which marks
every SYMBOLS_HEAP symbol and every reference-counted environment. -/
def gcMarkPhase (g : GcGlobals) : Marks :=
  let mark := g.gcMarkCtr
  let fuel := heapFuel g.heap
  let ms1 := g.threadStacks.foldl (fun ms st =>
    st.foldl (fun ms o => gcMarkObj g.heap fuel ms o mark) ms) g.marks
  let ms2 := g.symbolsHeap.foldl (fun ms s => gcMarkAddr g.heap fuel ms s mark) ms1
  g.envRefCounts.foldl (fun ms e => gcMarkAddr g.heap fuel ms e mark) ms2

/-- The sweep loop (gc/mod.rs lines 88..103): drain the registry in
order, retaining entries that should not deallocate and collecting the
rest, in order, for the type-specific deallocation; returns the pair
(new_heap, deallocated). -/
def sweep (ms : Marks) (m : Nat) (alloced : List ObjV) : List ObjV × List ObjV :=
  (alloced.filter (fun o => !(shouldDeallocObjV ms m o)),
   alloced.filter (fun o => shouldDeallocObjV ms m o))

/-- gc_pass (gc/mod.rs lines 117..140): fetch the epoch counter and
post-increment it (`fetch_add` returns the old value), run the mark
phase, then the sweep, passing each stale entry to its type-specific
deallocation, and finally set the threshold from the surviving
count. -/
def gc_pass (g : GcGlobals) : GcGlobals :=
  let mark := g.gcMarkCtr
  let ms := gcMarkPhase g
  let swept := sweep ms mark g.alloced
  { heap := heapEraseMany g.heap swept.2
    marks := ms
    alloced := swept.1
    threadStacks := g.threadStacks
    symbolsHeap := g.symbolsHeap
    envRefCounts := g.envRefCounts
    gcMarkCtr := g.gcMarkCtr + 1
    threshold := update_gc_threshold swept.1.length }

/-! ## Function environment construction: src/types/function.rs

`Function::build_env` walks the argument-list specification while
consuming the (already evaluated) argument list, pushing each bound
value onto the thread stack and recording (symbol, reference-to-top)
pairs for `Namespace::create_stack_env`.  Symbols are modelled by
their interned byte content (pointer equality of interned symbols is
name equality), a reference to a stack slot by the position of the slot
from the bottom of the stack, and argument values by the decoded view
`BObj`.  Arglist entries are symbol names (the source unwraps the
symbol conversion of every arglist element). -/

/-- An argument value as `build_env` observes it: a symbol, a list (as
pushed for a `&rest` parameter), the uninitialized marker, or any
other value. -/
inductive BObj where
  | symO (name : String)
  | listO (elems : List BObj)
  | uninitO
  | otherO (w : Nat)
  deriving Repr

/-- The `ArgType` enum from function.rs lines 14..19. -/
inductive ArgTypeS where
  | mandatory
  | optionalA
  | restA
  | keyA
  deriving DecidableEq, Repr

/-- The `EvaluatorError` variants reachable from `build_env`
(evaluator.rs lines 29..64). -/
inductive EvErr where
  | stackOverflowEv (stackSize stackCapacity : Nat)
  | stackUnderflowEv
  | badArgCount (arglist : List String) (found : Nat)
  | typeErrorEv (wanted : String)
  | unaccompaniedKey (key : String)
  deriving DecidableEq, Repr

/-- From<StackOverflowError> and From<StackUnderflowError> for
EvaluatorError. -/
def evErrOfStack : StackErr → EvErr
  | .overflow s c => .stackOverflowEv s c
  | .underflow => .stackUnderflowEv

/-- end_stack_frame (stack/mod.rs lines 168..173) on the error paths
of `build_env`: pop the frame built so far, then report the error
together with the restored stack; a pop underflow takes precedence,
exactly as the `?` on `end_stack_frame` does. -/
def errRestore {γ : Type} (e : EvErr) (sfl : Nat) (stack : List BObj) :
    Except (EvErr × List BObj) γ :=
  match popN sfl stack with
  | some st => .error (e, st)
  | none => .error (.stackUnderflowEv, [])

/-- Modelled from the spec: `Symbol::with_colon_in_front` is called by
function.rs but absent from the src snapshot of symbol.rs; spec
section 4.7 says keyword parameters are matched by a `:name`
convention. -/
def with_colon_in_front (s : String) : String := ":" ++ s

/-- try_convert_into::<GcRef<Symbol>> on an argument value; a
non-symbol yields the symbol-wanted conversion error. -/
def bobjAsSymbol : BObj → Except EvErr String
  | .symO n => .ok n
  | _ => .error (.typeErrorEv "symbol")

/-- HashMap::insert semantics for the keyword-pair table: the new
binding replaces any previous one for the same key. -/
def hmInsert (k : String) (v : BObj) (ps : List (String × BObj)) :
    List (String × BObj) :=
  (k, v) :: List.filter (fun p => !(p.1 == k)) ps

/-- The keyword-draining loop of the Key arm (function.rs lines
198..219): read a key symbol and its value until the arguments run
out; a key without a following value is an unaccompanied-key error. -/
def parseKeyPairsLoop :
    List BObj → List (String × BObj) → Except EvErr (List (String × BObj))
  | [], pairs => .ok pairs
  | key :: rest, pairs =>
    match bobjAsSymbol key with
    | .error e => .error e
    | .ok k =>
      match rest with
      | [] => .error (.unaccompaniedKey k)
      | v :: rest2 => parseKeyPairsLoop rest2 (hmInsert k v pairs)

/-- The trailing loop of the Key arm (function.rs lines 230..242):
bind every remaining arglist symbol to its keyword value or to the
uninitialized marker. -/
def keyBindRemaining (cap : Nat) :
    List String → List (String × BObj) → Nat → List (String × Nat) → List BObj →
    Except (EvErr × List BObj) (List (String × Nat) × List BObj)
  | [], _, _, buf, stack => .ok (buf, stack)
  | sym :: rest, pairs, sfl, buf, stack =>
    let s := with_colon_in_front sym
    let v := (List.lookup s pairs).getD .uninitO
    match push_to_vec_checked cap stack v with
    | .error e => errRestore (evErrOfStack e) sfl stack
    | .ok st1 =>
      keyBindRemaining cap rest pairs (sfl + 1) (buf ++ [(sym, st1.length - 1)]) st1

/-- The main loop of Function::build_env (function.rs lines 133..250).
Arguments: the full declared arglist (for the bad-argument-count
report), the capacity, the remaining arglist, the remaining arguments,
the current ArgType, n_args, stack_frame_length, the
symbol_lookup_buf, and the thread stack. -/
def build_env_loop (A : List String) (cap : Nat) :
    List String → List BObj → ArgTypeS → Nat → Nat → List (String × Nat) →
    List BObj → Except (EvErr × List BObj) (List (String × Nat) × List BObj)
  | [], _, _, _, _, buf, stack => .ok (buf, stack)
  | p :: rest, args, argType, nArgs, sfl, buf, stack =>
    if p == "&optional" then
      build_env_loop A cap rest args .optionalA nArgs sfl buf stack
    else if p == "&rest" then
      build_env_loop A cap rest args .restA nArgs sfl buf stack
    else if p == "&key" then
      build_env_loop A cap rest args .keyA nArgs sfl buf stack
    else
      match argType with
      | .mandatory =>
        match args with
        | o :: argsRest =>
          match push_to_vec_checked cap stack o with
          | .error e => errRestore (evErrOfStack e) sfl stack
          | .ok st1 =>
            build_env_loop A cap rest argsRest .mandatory (nArgs + 1) (sfl + 1)
              (buf ++ [(p, st1.length - 1)]) st1
        | [] => errRestore (.badArgCount A nArgs) sfl stack
      | .optionalA =>
        let ov : BObj × Nat × List BObj :=
          match args with
          | a :: t => (a, 1, t)
          | [] => (.uninitO, 0, [])
        match push_to_vec_checked cap stack ov.1 with
        | .error e => errRestore (evErrOfStack e) sfl stack
        | .ok st1 =>
          build_env_loop A cap rest ov.2.2 .optionalA (nArgs + ov.2.1) (sfl + 1)
            (buf ++ [(p, st1.length - 1)]) st1
      | .restA =>
        match push_to_vec_checked cap stack (.listO args) with
        | .error e => errRestore (evErrOfStack e) sfl stack
        | .ok st1 =>
          build_env_loop A cap rest [] .restA (nArgs + args.length) (sfl + 1)
            (buf ++ [(p, st1.length - 1)]) st1
      | .keyA =>
        match parseKeyPairsLoop args [] with
        | .error e => errRestore e sfl stack
        | .ok pairs =>
          let s := with_colon_in_front p
          let v := (List.lookup s pairs).getD .uninitO
          match push_to_vec_checked cap stack v with
          | .error e => errRestore (evErrOfStack e) sfl stack
          | .ok st1 =>
            keyBindRemaining cap rest pairs (sfl + 1)
              (buf ++ [(p, st1.length - 1)]) st1

/-- Function::build_env (function.rs lines 133..250): runs the loop
from the Mandatory state with empty counters, buffer, and the given
thread stack; on success `Namespace::create_stack_env` receives the
buffer of (symbol, stack-slot) bindings. -/
def build_env (arglist : List String) (args : List BObj) (cap : Nat)
    (stack : List BObj) :
    Except (EvErr × List BObj) (List (String × Nat) × List BObj) :=
  build_env_loop arglist cap arglist args .mandatory 0 0 [] stack

/-! ## Settling the claims -/

/-- C1: the claim says decode(encode(v)) = v bit-exactly for numbers
and pointer-identically for pointer variants.  The code fails it:
`untag` clears only the discriminator bits and leaves the parent NaN
bits set, so (a) the immediate boolean false (the value nil) decodes
as true, because `bool::from_unchecked` tests the untagged word
against zero and the parent bits keep it nonzero; (b) an encoded cons
pointer decodes to the pointer with the reserved NaN bits still set,
not the original address; (c) an unsigned immediate with bits at or
above position 32 corrupts the immediate tag field, so 2^32 decodes as
the uninitialized special marker. -/
theorem C1_decode_encode_mismatch :
    tryFromObject (Object.fromImmediate (.boolI false))
        = .ok (.immediate (.boolI true)) ∧
    tryFromObject (Object.fromConsPtr 8) = .ok (.cons 0x7FF0000000000008) ∧
    (0x7FF0000000000008 : Nat) ≠ 8 ∧
    tryFromObject (Object.fromImmediate (.unsignedInt (2 ^ 32)))
        = .ok (.immediate (.specialMarker .uninitialized)) := by
  refine ⟨by decide, by decide, by decide, by decide⟩

/-- C2: the claim says marking a function marks its captured defining
environment, and marking any environment marks its parent even when
its table is empty.  The code fails both: `Function::gc_mark_children`
never visits `self.env`, and `Namespace::gc_mark_children` marks the
parent only inside the per-entry loop, so an empty table never marks
the parent.  Below, a function at address 0 captures the environment
at address 1: after marking the function at epoch 1 with ample fuel,
the function is stamped but the environment still holds epoch 0; an
empty-table namespace at address 0 with parent 1 likewise leaves the
parent at epoch 0, while the same namespace with one table entry does
mark its parent. -/
theorem C2_mark_misses_env_and_parent :
    marksGet (gcMarkAddr
        [(0, Cell.funcC ⟨none, .nilL, .source .nilL, 0, 1⟩),
         (1, Cell.nsHeapC none [] none)] 100 [] 0 1) 0 = 1 ∧
    marksGet (gcMarkAddr
        [(0, Cell.funcC ⟨none, .nilL, .source .nilL, 0, 1⟩),
         (1, Cell.nsHeapC none [] none)] 100 [] 0 1) 1 = 0 ∧
    marksGet (gcMarkAddr
        [(0, Cell.nsHeapC none [] (some 1)),
         (1, Cell.nsHeapC none [] none)] 100 [] 0 1) 0 = 1 ∧
    marksGet (gcMarkAddr
        [(0, Cell.nsHeapC none [] (some 1)),
         (1, Cell.nsHeapC none [] none)] 100 [] 0 1) 1 = 0 ∧
    marksGet (gcMarkAddr
        [(0, Cell.nsHeapC none [(2, 3)] (some 1)),
         (1, Cell.nsHeapC none [] none), (2, Cell.symC),
         (3, Cell.heapObjC .immediateV)] 100 [] 0 1) 1 = 1 := by
  refine ⟨by decide, by decide, by decide, by decide, by decide⟩

/-- C9: the claim says signaling an error and catching it yields a
quiet error object with the same name and payload, the two tagged
words differing only in the low-bit tag over the same pointer.  The
quiet and signaling words over the same reference do differ only in
the low bit and untag identically, but the catch round-trip fails: the
broken `untag` hands `into_result` the pointer with the parent bits
still set, re-tagging cancels those bits, and for an error allocated
at address 8 the catch construct returns the bare word 8 — decoded as
a float — without ever entering the handler or binding a quiet
error. -/
theorem C9_catch_loses_error :
    (Object.quietError 8).raw = (Object.loudError 8).raw ^^^ 1 ∧
    errorFromUnchecked (Object.quietError 8)
        = errorFromUnchecked (Object.loudError 8) ∧
    catchErrorOn (Object.loudError 8) = .returned (Object.mk 8) ∧
    tryFromObject (Object.mk 8) = .ok (.float 8) := by
  refine ⟨by decide, by decide, by decide, by decide⟩

/-- C3 counterexample: the claim says the registry entry exists before
the allocation operation returns.  Starting from empty globals,
`allocate` has returned its handle, yet ALLOCED_OBJECTS is still empty
and the object sits in the channel to the allocator thread. -/
theorem C3_registry_not_updated_on_return :
    (allocate (Object.mk 3) ⟨[], [], 0, 0⟩).2.alloced = [] ∧
    (allocate (Object.mk 3) ⟨[], [], 0, 0⟩).2.pending = [Object.mk 3] := by
  exact ⟨rfl, rfl⟩

/-- Helper: running the allocator thread once per buffered message
moves the whole channel contents, in order, onto the registry. -/
theorem allocatorRun_drains (p : List Object) :
    ∀ g : AllocGlobals, g.pending = p →
      (allocatorRun p.length g).alloced = g.alloced ++ p ∧
      (allocatorRun p.length g).pending = [] := by
  induction p with
  | nil =>
    intro g h
    simp [allocatorRun, h]
  | cons o rest ih =>
    intro g h
    have h1 : (allocatorThreadStep g).pending = rest := by
      simp [allocatorThreadStep, h]
    have h2 : (allocatorThreadStep g).alloced = g.alloced ++ [o] := by
      simp [allocatorThreadStep, h]
    have hrun : allocatorRun (o :: rest).length g
        = allocatorRun rest.length (allocatorThreadStep g) := rfl
    obtain ⟨ih1, ih2⟩ := ih (allocatorThreadStep g) h1
    refine ⟨?_, by rw [hrun]; exact ih2⟩
    rw [hrun, ih1, h2]
    simp

/-- C3 amended: before returning its handle, `allocate` only enqueues
the object on the JUST_ALLOCATED channel; the registry is unchanged
when the caller resumes, and the object reaches ALLOCED_OBJECTS only
when the dedicated allocator thread processes the message — possibly
after the caller has already published the handle. -/
theorem C3_amended_channel_registration (g : AllocGlobals) (o : Object) :
    (allocate o g).1 = o ∧
    (allocate o g).2.alloced = g.alloced ∧
    (allocate o g).2.pending = g.pending ++ [o] ∧
    (drainAllocator (allocate o g).2).alloced = g.alloced ++ g.pending ++ [o] ∧
    (drainAllocator (allocate o g).2).pending = [] := by
  have hp : (allocate o g).2.pending = g.pending ++ [o] := rfl
  obtain ⟨h1, h2⟩ := allocatorRun_drains (g.pending ++ [o]) (allocate o g).2 hp
  have hd : drainAllocator (allocate o g).2
      = allocatorRun (g.pending ++ [o]).length (allocate o g).2 := by
    simp [drainAllocator, hp]
  refine ⟨rfl, rfl, rfl, ?_, ?_⟩
  · rw [hd, h1]
    simp [allocate, add_to_alloced]
  · rw [hd]
    exact h2

/-- C3 amended, witness: with one object already registered and one
still in the channel, allocating a third changes only the channel, and
draining the allocator thread registers both buffered objects in
order. -/
theorem C3_amended_channel_registration_witness :
    (allocate (Object.mk 9) ⟨[Object.mk 1], [Object.mk 2], 0, 0⟩).2.alloced
        = [Object.mk 1] ∧
    (drainAllocator
        (allocate (Object.mk 9) ⟨[Object.mk 1], [Object.mk 2], 0, 0⟩).2).alloced
      = [Object.mk 1] ++ [Object.mk 2] ++ [Object.mk 9] :=
  ⟨(C3_amended_channel_registration ⟨[Object.mk 1], [Object.mk 2], 0, 0⟩
      (Object.mk 9)).2.1,
   (C3_amended_channel_registration ⟨[Object.mk 1], [Object.mk 2], 0, 0⟩
      (Object.mk 9)).2.2.2.1⟩

/-- C4 counterexample: the claim says one full mark+sweep pass
deallocates an unreachable registry object even when its stored epoch
still holds the default value.  In the initial state the epoch counter
is 0, `fetch_add` hands the first pass the old value 0, which equals
the default marking 0 of the unreachable heap object, so the first
pass retains it. -/
theorem C4_first_pass_retains_default_epoch :
    (gc_pass ⟨[(0, Cell.heapObjC .immediateV)], [], [.heapObjectV 0],
        [], [], [], 0, 0⟩).alloced = [.heapObjectV 0] := by
  decide

/-- C4 amended: an unreachable registry object is deallocated by the
first pass whose mark value differs from the stored epoch of the object; in
a rootless state, one pass retains exactly the entries whose stored
epoch equals the fetched counter value — so an object still holding
the default epoch survives the first pass, whose mark value is the
initial counter 0 — and the following pass removes everything that
remains. -/
theorem C4_amended_stale_swept_second_pass (g : GcGlobals)
    (h1 : g.threadStacks = []) (h2 : g.symbolsHeap = [])
    (h3 : g.envRefCounts = [])
    (h4 : ∀ o ∈ g.alloced, isHeapBacked o = true) :
    (gc_pass g).alloced
      = g.alloced.filter (fun o => !(shouldDeallocObjV g.marks g.gcMarkCtr o)) ∧
    (gc_pass (gc_pass g)).alloced = [] := by
  have hgen : ∀ g1 : GcGlobals, (gc_pass g1).alloced
      = (sweep (gcMarkPhase g1) g1.gcMarkCtr g1.alloced).1 := fun _ => rfl
  have hmp : gcMarkPhase g = g.marks := by
    simp [gcMarkPhase, h1, h2, h3]
  have halloc : (gc_pass g).alloced
      = g.alloced.filter (fun o => !(shouldDeallocObjV g.marks g.gcMarkCtr o)) := by
    rw [hgen, hmp]
    rfl
  refine ⟨halloc, ?_⟩
  have hmp2 : gcMarkPhase (gc_pass g) = (gc_pass g).marks := by
    have e1 : (gc_pass g).threadStacks = g.threadStacks := rfl
    have e2 : (gc_pass g).symbolsHeap = g.symbolsHeap := rfl
    have e3 : (gc_pass g).envRefCounts = g.envRefCounts := rfl
    simp [gcMarkPhase, e1, e2, e3, h1, h2, h3]
  have hmarks1 : (gc_pass g).marks = gcMarkPhase g := rfl
  have hctr : (gc_pass g).gcMarkCtr = g.gcMarkCtr + 1 := rfl
  have h2nd : (gc_pass (gc_pass g)).alloced
      = ((gc_pass g).alloced).filter
          (fun o => !(shouldDeallocObjV g.marks (g.gcMarkCtr + 1) o)) := by
    rw [hgen, hmp2, hmarks1, hmp, hctr]
    rfl
  rw [h2nd, halloc, List.filter_filter]
  rw [List.filter_eq_nil_iff]
  intro o ho
  have hb := h4 o ho
  cases o with
  | floatV => simp [isHeapBacked, addrOfObjV] at hb
  | immediateV => simp [isHeapBacked, addrOfObjV] at hb
  | referenceV t => simp [isHeapBacked, addrOfObjV] at hb
  | symbolV x => simp [shouldDeallocObjV]; omega
  | consV x => simp [shouldDeallocObjV]; omega
  | namespaceV x => simp [shouldDeallocObjV]; omega
  | heapObjectV x => simp [shouldDeallocObjV]; omega
  | functionV x => simp [shouldDeallocObjV]; omega
  | quietErrorV x => simp [shouldDeallocObjV]; omega

/-- C4 amended, witness: a rootless state whose single registry entry
holds epoch 5 while the counter stands at 7; two passes empty the
registry. -/
theorem C4_amended_witness :
    (gc_pass (gc_pass ⟨[], [(0, 5)], [.consV 0], [], [], [], 7, 0⟩)).alloced
      = [] :=
  (C4_amended_stale_swept_second_pass
    ⟨[], [(0, 5)], [.consV 0], [], [], [], 7, 0⟩ rfl rfl rfl (by decide)).2

/-- C8: after a sweep at epoch m, every registry entry whose stored
epoch differs from m is in the deallocation batch and not in the
retained registry, every entry whose epoch matches is retained, no
retained entry is stale, and inside gc_pass the deallocation batch is
handed to the type-specific deallocations, the retained list becomes
the registry, and the next trigger threshold equals twice the
surviving count. -/
theorem C8_sweep_postconditions (ms : Marks) (m : Nat) (alloced : List ObjV)
    (hheap : ∀ o ∈ alloced, isHeapBacked o = true) :
    (∀ o ∈ alloced, shouldDeallocObjV ms m o = true →
        o ∈ (sweep ms m alloced).2 ∧ o ∉ (sweep ms m alloced).1) ∧
    (∀ o ∈ alloced, shouldDeallocObjV ms m o = false →
        o ∈ (sweep ms m alloced).1) ∧
    (∀ o ∈ (sweep ms m alloced).1, ∀ a, addrOfObjV o = some a →
        marksGet ms a = m) ∧
    (∀ g : GcGlobals, gcMarkPhase g = ms → g.gcMarkCtr = m →
        g.alloced = alloced →
        (gc_pass g).alloced = (sweep ms m alloced).1 ∧
        (gc_pass g).heap = heapEraseMany g.heap (sweep ms m alloced).2 ∧
        (gc_pass g).threshold = (sweep ms m alloced).1.length * 2) := by
  refine ⟨?_, ?_, ?_, ?_⟩
  · intro o ho hd
    constructor
    · exact List.mem_filter.mpr ⟨ho, by simp [hd]⟩
    · intro hmem
      have := (List.mem_filter.mp hmem).2
      simp [hd] at this
  · intro o ho hd
    exact List.mem_filter.mpr ⟨ho, by simp [hd]⟩
  · intro o hmem a ha
    have hcond := (List.mem_filter.mp hmem).2
    cases o <;> simp [addrOfObjV] at ha <;> subst ha <;>
      simpa [shouldDeallocObjV] using hcond
  · intro g hms hm hal
    subst hms hm hal
    exact ⟨rfl, rfl, rfl⟩

/-- C8 witness: with the epoch table holding 5 at address 0 and a pass
epoch of 5, the cons at address 0 is retained and the heap object at
the unmarked address 1 is deallocated. -/
theorem C8_sweep_postconditions_witness :
    (.heapObjectV 1) ∈ (sweep [(0, 5)] 5 [.consV 0, .heapObjectV 1]).2 ∧
    (.consV 0) ∈ (sweep [(0, 5)] 5 [.consV 0, .heapObjectV 1]).1 := by
  have h := C8_sweep_postconditions [(0, 5)] 5 [.consV 0, .heapObjectV 1]
    (by decide)
  exact ⟨(h.1 _ (by decide) (by decide)).1, h.2.1 _ (by decide) (by decide)⟩

/-- Helper: a successful association lookup exhibits a member pair. -/
theorem lookup_mem_symtab {l : List (String × Nat)} {k : String} {v : Nat}
    (h : List.lookup k l = some v) : (k, v) ∈ l := by
  induction l with
  | nil => simp [List.lookup] at h
  | cons p rest ih =>
    rw [List.lookup] at h
    by_cases hk : k = p.1
    · subst hk
      simp at h
      subst h
      exact List.mem_cons_self _ _
    · have hb : (k == p.1) = false := beq_eq_false_iff_ne.mpr hk
      rw [hb] at h
      exact List.mem_cons_of_mem _ (ih h)

/-- The SYMBOLS_HEAP invariant: every interned address is below the
allocator counter, and addresses identify names (a fresh allocation is
never pointer-equal to a live one). -/
def SymTabInv (σ : SymTab) : Prop :=
  (∀ p ∈ σ.table, p.2 < σ.ctr) ∧
  (∀ p ∈ σ.table, ∀ q ∈ σ.table, p.2 = q.2 → p.1 = q.1)

/-- Helper: the already-interned branch of make_symbol. -/
theorem make_symbol_eq_found (s : String) (σ : SymTab) (a : Nat)
    (h : List.lookup s σ.table = some a) : make_symbol s σ = (a, σ) := by
  unfold make_symbol
  rw [h]

/-- Helper: the allocating branch of make_symbol. -/
theorem make_symbol_eq_fresh (s : String) (σ : SymTab)
    (h : List.lookup s σ.table = none) :
    make_symbol s σ = (σ.ctr, ⟨(s, σ.ctr) :: σ.table, σ.ctr + 1⟩) := by
  unfold make_symbol
  rw [h]

/-- Helper: after make_symbol the name maps to the returned address. -/
theorem make_symbol_lookup_self (s : String) (σ : SymTab) :
    List.lookup s (make_symbol s σ).2.table = some (make_symbol s σ).1 := by
  cases h : List.lookup s σ.table with
  | some a => rw [make_symbol_eq_found s σ a h]; exact h
  | none => rw [make_symbol_eq_fresh s σ h]; simp [List.lookup]

/-- Helper: make_symbol never disturbs an existing interning. -/
theorem make_symbol_lookup_mono (s t : String) (a : Nat) (σ : SymTab)
    (h : List.lookup t σ.table = some a) :
    List.lookup t (make_symbol s σ).2.table = some a := by
  cases hs : List.lookup s σ.table with
  | some b => rw [make_symbol_eq_found s σ b hs]; exact h
  | none =>
    have hts : t ≠ s := by
      intro he
      rw [he, hs] at h
      cases h
    rw [make_symbol_eq_fresh s σ hs]
    simp [List.lookup, beq_eq_false_iff_ne.mpr hts, h]

/-- Helper: make_symbol preserves the SYMBOLS_HEAP invariant. -/
theorem make_symbol_inv (s : String) (σ : SymTab) (h : SymTabInv σ) :
    SymTabInv (make_symbol s σ).2 := by
  obtain ⟨hb, hinj⟩ := h
  cases hs : List.lookup s σ.table with
  | some a => rw [make_symbol_eq_found s σ a hs]; exact ⟨hb, hinj⟩
  | none =>
    have htab : (make_symbol s σ).2.table = (s, σ.ctr) :: σ.table := by
      rw [make_symbol_eq_fresh s σ hs]
    have hct : (make_symbol s σ).2.ctr = σ.ctr + 1 := by
      rw [make_symbol_eq_fresh s σ hs]
    constructor
    · intro p hp
      rw [htab] at hp
      rw [hct]
      rcases List.mem_cons.mp hp with hp | hp
      · subst hp
        exact Nat.lt_succ_self _
      · exact Nat.lt_succ_of_lt (hb p hp)
    · intro p hp q hq heq
      rw [htab] at hp hq
      rcases List.mem_cons.mp hp with hp | hp <;>
        rcases List.mem_cons.mp hq with hq | hq
      · rw [hp, hq]
      · subst hp
        have h2 : σ.ctr = q.2 := heq
        have h3 := hb q hq
        omega
      · subst hq
        have h2 : p.2 = σ.ctr := heq
        have h3 := hb p hp
        omega
      · exact hinj p hp q hq heq

/-- Helper: the number of addresses handed out equals the number of
calls. -/
theorem runMakeSymbols_length (names : List String) :
    ∀ σ : SymTab, (runMakeSymbols names σ).1.length = names.length := by
  induction names with
  | nil => intro σ; rfl
  | cons s rest ih =>
    intro σ
    simp [runMakeSymbols, ih]

/-- Helper: a whole run of make_symbol calls never disturbs an
existing interning. -/
theorem runMakeSymbols_lookup_mono (names : List String) :
    ∀ (σ : SymTab) (t : String) (a : Nat),
      List.lookup t σ.table = some a →
      List.lookup t (runMakeSymbols names σ).2.table = some a := by
  induction names with
  | nil => intro σ t a h; exact h
  | cons s rest ih =>
    intro σ t a h
    exact ih (make_symbol s σ).2 t a (make_symbol_lookup_mono s t a σ h)

/-- Helper: a run of make_symbol calls preserves the invariant. -/
theorem runMakeSymbols_inv (names : List String) :
    ∀ σ : SymTab, SymTabInv σ → SymTabInv (runMakeSymbols names σ).2 := by
  induction names with
  | nil => intro σ h; exact h
  | cons s rest ih =>
    intro σ h
    exact ih (make_symbol s σ).2 (make_symbol_inv s σ h)

/-- Helper: the i-th address handed out by a run is exactly what the
final table maps the i-th name to. -/
theorem runMakeSymbols_lookup (names : List String) :
    ∀ (σ : SymTab) (i : Nat) (hi : i < names.length)
      (hi2 : i < (runMakeSymbols names σ).1.length),
      List.lookup (names.get ⟨i, hi⟩) (runMakeSymbols names σ).2.table
        = some ((runMakeSymbols names σ).1.get ⟨i, hi2⟩) := by
  induction names with
  | nil =>
    intro σ i hi
    simp at hi
  | cons s rest ih =>
    intro σ i hi hi2
    cases i with
    | zero =>
      have h1 := make_symbol_lookup_self s σ
      have h2 := runMakeSymbols_lookup_mono rest (make_symbol s σ).2 s
        (make_symbol s σ).1 h1
      simpa [runMakeSymbols] using h2
    | succ j =>
      have hj : j < rest.length := by simpa using hi
      have hj2 : j < (runMakeSymbols rest (make_symbol s σ).2).1.length := by
        rw [runMakeSymbols_length]
        exact hj
      have := ih (make_symbol s σ).2 j hj hj2
      simpa [runMakeSymbols] using this

/-- C5: over any sequence of make_symbol calls from the initial empty
SYMBOLS_HEAP (the global lock serialises concurrent callers into such
a sequence), the i-th and j-th calls return the same heap address if
and only if the i-th and j-th names are byte-identical. -/
theorem C5_make_symbol_interning (names : List String) (i j : Nat)
    (hi : i < names.length) (hj : j < names.length)
    (hi2 : i < (runMakeSymbols names ⟨[], 0⟩).1.length)
    (hj2 : j < (runMakeSymbols names ⟨[], 0⟩).1.length) :
    ((runMakeSymbols names ⟨[], 0⟩).1.get ⟨i, hi2⟩
        = (runMakeSymbols names ⟨[], 0⟩).1.get ⟨j, hj2⟩)
      ↔ names.get ⟨i, hi⟩ = names.get ⟨j, hj⟩ := by
  have hinv0 : SymTabInv ⟨[], 0⟩ := ⟨by simp, by simp⟩
  have hinvF := runMakeSymbols_inv names ⟨[], 0⟩ hinv0
  have hli := runMakeSymbols_lookup names ⟨[], 0⟩ i hi hi2
  have hlj := runMakeSymbols_lookup names ⟨[], 0⟩ j hj hj2
  constructor
  · intro he
    rw [he] at hli
    have mi := lookup_mem_symtab hli
    have mj := lookup_mem_symtab hlj
    exact hinvF.2 _ mi _ mj rfl
  · intro he
    rw [he] at hli
    rw [hli] at hlj
    exact Option.some.inj hlj

/-- C5 witness: interning foo, bar, foo hands out addresses for calls
0 and 2 that agree exactly because the names agree. -/
theorem C5_make_symbol_interning_witness :
    ((runMakeSymbols ["foo", "bar", "foo"] ⟨[], 0⟩).1.get ⟨0, by decide⟩
        = (runMakeSymbols ["foo", "bar", "foo"] ⟨[], 0⟩).1.get ⟨2, by decide⟩)
      ↔ (["foo", "bar", "foo"].get ⟨0, by decide⟩
        = ["foo", "bar", "foo"].get ⟨2, by decide⟩) :=
  C5_make_symbol_interning ["foo", "bar", "foo"] 0 2
    (by decide) (by decide) (by decide) (by decide)

/-- Helper: pushing a list of values one by one succeeds when they
fit, and stacks them in order under the previous contents. -/
theorem foldlM_push_ok (cap : Nat) (objs : List Object) :
    ∀ s : List Object, s.length + objs.length ≤ cap →
      objs.foldlM (fun acc o => push_to_vec_checked cap acc o) s
        = Except.ok (objs.reverse ++ s) := by
  induction objs with
  | nil =>
    intro s _
    rfl
  | cons o rest ih =>
    intro s h
    have h2 : s.length + rest.length + 1 ≤ cap := by
      simp only [List.length_cons] at h
      omega
    have hlt : s.length ≠ cap := by omega
    have hpush : push_to_vec_checked cap s o = Except.ok (o :: s) := by
      simp [push_to_vec_checked, hlt]
    have hrec := ih (o :: s) (by simp; omega)
    have hlist : (o :: rest).reverse ++ s = rest.reverse ++ (o :: s) := by simp
    rw [List.foldlM_cons, hpush, hlist]
    exact hrec

/-- Helper: popping exactly the length of a prefix uncovers the
suffix. -/
theorem popN_append {α : Type} (a : List α) :
    ∀ b : List α, popN a.length (a ++ b) = some b := by
  induction a with
  | nil => intro b; rfl
  | cons x rest ih => intro b; simpa [popN] using ih b

/-- Helper: the count marker reads back exactly for every count a
128-slot stack can hold. -/
theorem marker_readback :
    ∀ n : Fin 129, usizeFromUnchecked (Object.fromUsize n.val) = n.val := by
  decide

/-- C6: from any stack of depth d, pushing n argument values and the
trailing count marker (equal to n) succeeds whenever d + n + 1 fits in
the capacity, and an immediately following close_stack_frame_and_return
pops the marker and exactly the n argument slots and pushes the return
value, leaving depth d + 1 with the return value on top and every slot
below depth d unchanged. -/
theorem C6_stack_frame_roundtrip (d objs : List Object) (v : Object)
    (h : d.length + objs.length + 1 ≤ STACK_CAPACITY) :
    make_stack_frame STACK_CAPACITY d objs
        = .ok (Object.fromUsize objs.length :: (objs.reverse ++ d)) ∧
    close_stack_frame_and_return
        (Object.fromUsize objs.length :: (objs.reverse ++ d)) v
      = some (v :: d) := by
  have hcap : STACK_CAPACITY = 128 := rfl
  have h1 : d.length + objs.length ≤ STACK_CAPACITY := by omega
  have hfold := foldlM_push_ok STACK_CAPACITY objs d h1
  constructor
  · have hlen2 : objs.length + d.length ≠ STACK_CAPACITY := by omega
    have hpush : push_to_vec_checked STACK_CAPACITY (objs.reverse ++ d)
        (Object.fromUsize objs.length)
        = Except.ok (Object.fromUsize objs.length :: (objs.reverse ++ d)) := by
      simp [push_to_vec_checked, hlen2]
    unfold make_stack_frame
    rw [hfold]
    exact hpush
  · have hn : usizeFromUnchecked (Object.fromUsize objs.length) = objs.length :=
      marker_readback ⟨objs.length, by omega⟩
    have hpop : popN objs.length (objs.reverse ++ d) = some d := by
      have := popN_append objs.reverse d
      simpa using this
    simp [close_stack_frame_and_return, hn, hpop]

/-- C6 witness: a stack holding one value, a two-argument frame, and a
return value. -/
theorem C6_stack_frame_roundtrip_witness :
    make_stack_frame STACK_CAPACITY [Object.mk 77] [Object.mk 1, Object.mk 2]
        = .ok (Object.fromUsize 2
            :: ([Object.mk 1, Object.mk 2].reverse ++ [Object.mk 77])) ∧
    close_stack_frame_and_return
        (Object.fromUsize 2
          :: ([Object.mk 1, Object.mk 2].reverse ++ [Object.mk 77]))
        (Object.mk 5)
      = some [Object.mk 5, Object.mk 77] :=
  C6_stack_frame_roundtrip [Object.mk 77] [Object.mk 1, Object.mk 2]
    (Object.mk 5) (by decide)

/-- Helper: the (symbol, stack-slot) bindings produced by consuming a
run of mandatory parameters, the first landing on slot `base`. -/
def bindingsFrom : List String → Nat → List (String × Nat)
  | [], _ => []
  | p :: rest, base => (p, base) :: bindingsFrom rest (base + 1)

/-- Helper: consuming a run of non-marker parameters in the Mandatory
state binds them in order to freshly pushed stack slots and leaves the
loop at the remaining arglist with the remaining arguments. -/
theorem benv_consume (A : List String) (cap : Nat) (params : List String) :
    ∀ (tail : List String) (args : List BObj) (nArgs sfl : Nat)
      (buf : List (String × Nat)) (stack : List BObj),
      (∀ q ∈ params, q ≠ "&optional" ∧ q ≠ "&rest" ∧ q ≠ "&key") →
      params.length ≤ args.length →
      stack.length + params.length ≤ cap →
      build_env_loop A cap (params ++ tail) args .mandatory nArgs sfl buf stack
        = build_env_loop A cap tail (args.drop params.length) .mandatory
            (nArgs + params.length) (sfl + params.length)
            (buf ++ bindingsFrom params stack.length)
            ((args.take params.length).reverse ++ stack) := by
  induction params with
  | nil =>
    intro tail args nArgs sfl buf stack _ _ _
    simp [bindingsFrom]
  | cons p rest ih =>
    intro tail args nArgs sfl buf stack hp hlen hcap
    obtain ⟨hp1, hp2, hp3⟩ := hp p (List.mem_cons_self _ _)
    cases args with
    | nil => simp at hlen
    | cons a args2 =>
      simp only [List.length_cons] at hcap
      have hlt : stack.length ≠ cap := by omega
      have hstep : build_env_loop A cap ((p :: rest) ++ tail) (a :: args2)
            .mandatory nArgs sfl buf stack
          = build_env_loop A cap (rest ++ tail) args2 .mandatory (nArgs + 1)
              (sfl + 1) (buf ++ [(p, stack.length)]) (a :: stack) := by
        simp only [List.cons_append, build_env_loop,
          beq_eq_false_iff_ne.mpr hp1, beq_eq_false_iff_ne.mpr hp2,
          beq_eq_false_iff_ne.mpr hp3, Bool.false_eq_true, if_false,
          push_to_vec_checked, beq_eq_false_iff_ne.mpr hlt,
          List.length_cons, Nat.add_sub_cancel, List.append_eq]
      have h1 : ∀ q ∈ rest, q ≠ "&optional" ∧ q ≠ "&rest" ∧ q ≠ "&key" :=
        fun q hq => hp q (List.mem_cons_of_mem _ hq)
      have h2 : rest.length ≤ args2.length := by simpa using hlen
      have h3 : (a :: stack).length + rest.length ≤ cap := by
        simp only [List.length_cons]
        omega
      rw [hstep, ih tail args2 (nArgs + 1) (sfl + 1)
        (buf ++ [(p, stack.length)]) (a :: stack) h1 h2 h3]
      have e2 : nArgs + (p :: rest).length = nArgs + 1 + rest.length := by
        simp only [List.length_cons]
        omega
      have e3 : sfl + (p :: rest).length = sfl + 1 + rest.length := by
        simp only [List.length_cons]
        omega
      have e4 : buf ++ bindingsFrom (p :: rest) stack.length
          = (buf ++ [(p, stack.length)]) ++ bindingsFrom rest (a :: stack).length := by
        simp [bindingsFrom]
      have e5 : ((a :: args2).take (p :: rest).length).reverse ++ stack
          = (args2.take rest.length).reverse ++ (a :: stack) := by
        simp
      have e1 : (a :: args2).drop (p :: rest).length = args2.drop rest.length := rfl
      rw [e1, e2, e3, e4, e5]

/-- Helper: a non-marker parameter in the Mandatory state with no
arguments left reports the bad-argument-count error carrying the
declared arglist and the count consumed, after restoring the stack. -/
theorem benv_exhausted (A : List String) (cap : Nat) (t0 : String)
    (trest : List String) (nA sfl : Nat) (buf : List (String × Nat))
    (stack st : List BObj)
    (h1 : t0 ≠ "&optional") (h2 : t0 ≠ "&rest") (h3 : t0 ≠ "&key")
    (hpop : popN sfl stack = some st) :
    build_env_loop A cap (t0 :: trest) [] .mandatory nA sfl buf stack
      = .error (.badArgCount A nA, st) := by
  simp only [build_env_loop, beq_eq_false_iff_ne.mpr h1,
    beq_eq_false_iff_ne.mpr h2, beq_eq_false_iff_ne.mpr h3,
    Bool.false_eq_true, if_false, errRestore, hpop]

/-- Helper: the &rest marker followed by its parameter consumes the
whole remaining argument list into one pushed list value bound to the
parameter, and succeeds for any number of surplus arguments. -/
theorem benv_rest_step (A : List String) (cap : Nat) (r : String)
    (args : List BObj) (nA sfl : Nat) (buf : List (String × Nat))
    (stack : List BObj)
    (h1 : r ≠ "&optional") (h2 : r ≠ "&rest") (h3 : r ≠ "&key")
    (hcap : stack.length ≠ cap) :
    build_env_loop A cap ["&rest", r] args .mandatory nA sfl buf stack
      = .ok (buf ++ [(r, stack.length)], .listO args :: stack) := by
  simp only [build_env_loop, beq_eq_false_iff_ne.mpr h1,
    beq_eq_false_iff_ne.mpr h2, beq_eq_false_iff_ne.mpr h3,
    push_to_vec_checked, beq_eq_false_iff_ne.mpr hcap,
    Bool.false_eq_true, if_false, List.length_cons, Nat.add_sub_cancel,
    String.reduceBEq, reduceIte]

/-- C7: calling a function whose arglist declares only mandatory
parameters with fewer arguments than parameters fails with the
bad-argument-count error reporting the declared arglist and the number
of arguments found, with the stack frame unwound; and an arglist
ending in a &rest parameter consumes any number of surplus arguments
into a list bound to that parameter without error. -/
theorem C7_arity_check :
    (∀ (params : List String) (args : List BObj) (stack : List BObj)
        (cap : Nat),
        (∀ q ∈ params, q ≠ "&optional" ∧ q ≠ "&rest" ∧ q ≠ "&key") →
        args.length < params.length →
        stack.length + args.length ≤ cap →
        build_env params args cap stack
          = .error (.badArgCount params args.length, stack)) ∧
    (∀ (mand : List String) (r : String) (args : List BObj)
        (stack : List BObj) (cap : Nat),
        (∀ q ∈ mand ++ [r], q ≠ "&optional" ∧ q ≠ "&rest" ∧ q ≠ "&key") →
        mand.length ≤ args.length →
        stack.length + mand.length + 1 ≤ cap →
        build_env (mand ++ ["&rest", r]) args cap stack
          = .ok (bindingsFrom mand stack.length
                  ++ [(r, stack.length + mand.length)],
                .listO (args.drop mand.length)
                  :: ((args.take mand.length).reverse ++ stack))) := by
  constructor
  · intro params args stack cap hp hlt hcap
    have htake : (params.take args.length).length = args.length := by
      simp [List.length_take]
      omega
    have hp1 : ∀ q ∈ params.take args.length,
        q ≠ "&optional" ∧ q ≠ "&rest" ∧ q ≠ "&key" :=
      fun q hq => hp q (List.take_subset _ _ hq)
    have hc := benv_consume params cap (params.take args.length)
      (params.drop args.length) args 0 0 [] stack hp1 (by omega) (by omega)
    have hstart : build_env params args cap stack
        = build_env_loop params cap
            (params.take args.length ++ params.drop args.length) args
            .mandatory 0 0 [] stack := by
      rw [List.take_append_drop]
      rfl
    rw [hstart, hc, htake]
    cases hD : params.drop args.length with
    | nil =>
      have := congrArg List.length hD
      simp [List.length_drop] at this
      omega
    | cons t0 trest =>
      have ht0 : t0 ∈ params := by
        have hmem : t0 ∈ params.drop args.length := by
          rw [hD]
          exact List.mem_cons_self _ _
        exact List.drop_subset _ _ hmem
      obtain ⟨m1, m2, m3⟩ := hp t0 ht0
      have hpop : popN (0 + args.length)
          ((args.take args.length).reverse ++ stack) = some stack := by
        have := popN_append args.reverse stack
        simpa using this
      rw [List.drop_length]
      rw [benv_exhausted params cap t0 trest (0 + args.length)
        (0 + args.length) ([] ++ bindingsFrom (params.take args.length)
          stack.length)
        ((args.take args.length).reverse ++ stack) stack m1 m2 m3 hpop]
      simp
  · intro mand r args stack cap hp hlen hcap
    have hpm : ∀ q ∈ mand, q ≠ "&optional" ∧ q ≠ "&rest" ∧ q ≠ "&key" :=
      fun q hq => hp q (List.mem_append_left _ hq)
    obtain ⟨m1, m2, m3⟩ := hp r (List.mem_append_right _ (List.mem_cons_self _ _))
    have hc := benv_consume (mand ++ ["&rest", r]) cap mand ["&rest", r] args
      0 0 [] stack hpm hlen (by omega)
    have hstart : build_env (mand ++ ["&rest", r]) args cap stack
        = build_env_loop (mand ++ ["&rest", r]) cap (mand ++ ["&rest", r])
            args .mandatory 0 0 [] stack := rfl
    have hslen : ((args.take mand.length).reverse ++ stack).length
        = stack.length + mand.length := by
      simp [List.length_take]
      omega
    have hne : ((args.take mand.length).reverse ++ stack).length ≠ cap := by
      rw [hslen]
      omega
    rw [hstart, hc, benv_rest_step (mand ++ ["&rest", r]) cap r
      (args.drop mand.length) (0 + mand.length) (0 + mand.length)
      ([] ++ bindingsFrom mand stack.length)
      ((args.take mand.length).reverse ++ stack) m1 m2 m3 hne]
    rw [hslen]
    simp

/-- C7 witness: a function declared (a b) called with one argument
reports found 1 with the declared arglist; a function declared
(a &rest rest) called with three arguments binds a to the first and
rest to the list of the surplus two. -/
theorem C7_arity_check_witness :
    build_env ["a", "b"] [.otherO 1] 128 []
        = .error (.badArgCount ["a", "b"] 1, []) ∧
    build_env ["a", "&rest", "rest"] [.otherO 1, .otherO 2, .otherO 3] 128 []
        = .ok ([("a", 0), ("rest", 1)],
               .listO [.otherO 2, .otherO 3] :: [.otherO 1]) := by
  constructor
  · have h := C7_arity_check.1 ["a", "b"] [.otherO 1] [] 128
      (by decide) (by decide) (by decide)
    simpa using h
  · have h := C7_arity_check.2 ["a"] "rest" [.otherO 1, .otherO 2, .otherO 3]
      [] 128 (by decide) (by decide) (by decide)
    simpa [bindingsFrom] using h

/-- C10: calling a function whose arglist declares only mandatory
parameters with more arguments than parameters raises no error:
environment construction succeeds, the first arguments bind to the
declared parameters in order, and the surplus arguments are silently
discarded. -/
theorem C10_surplus_args_discarded (params : List String) (args : List BObj)
    (stack : List BObj) (cap : Nat)
    (hp : ∀ q ∈ params, q ≠ "&optional" ∧ q ≠ "&rest" ∧ q ≠ "&key")
    (hlen : params.length ≤ args.length)
    (hcap : stack.length + params.length ≤ cap) :
    build_env params args cap stack
      = .ok (bindingsFrom params stack.length,
             (args.take params.length).reverse ++ stack) := by
  have hc := benv_consume params cap params [] args 0 0 [] stack hp hlen hcap
  rw [List.append_nil] at hc
  have hstart : build_env params args cap stack
      = build_env_loop params cap params args .mandatory 0 0 [] stack := rfl
  rw [hstart, hc]
  simp [build_env_loop]

/-- C10 witness: a function declared (a) called with three arguments
binds a to the first and ignores the rest. -/
theorem C10_surplus_args_discarded_witness :
    build_env ["a"] [.otherO 1, .otherO 2, .otherO 3] 128 []
      = .ok ([("a", 0)], [.otherO 1]) := by
  have h := C10_surplus_args_discarded ["a"] [.otherO 1, .otherO 2, .otherO 3]
    [] 128 (by decide) (by decide) (by decide)
  simpa [bindingsFrom] using h

end Phoebe
